import Mathlib

/-!
Verification of the uAnimeDownloader backend (`crawler.py`, `main.py`,
`models.py`) against its natural-language specification.

The Python code is shallowly embedded: HTML documents are modelled as the
DOM trees BeautifulSoup would produce (an explicit rose tree of elements
and text nodes), the regular expressions of `crawler.py` are implemented
character-by-character with the same leftmost-match / alternation-order /
greedy semantics as Python `re`, `datetime` values are explicit records
carrying the fixed Asia/Taipei offset, and the HTTP client is a record
holding its `closed` flag together with a response oracle.  Fallible
Python code (a `datetime` constructor that can raise `ValueError`) is
embedded with `Except`.
-/

/-! ### Python string primitives -/

/-- The whitespace characters recognised by Python's `str.strip` and by
`\s` in a `str` regular expression (ASCII whitespace plus the common
Unicode space characters). -/
def isPySpace (c : Char) : Bool :=
  c = ' ' || c = '\t' || c = '\n' || c = '\r' || c = '\x0b' || c = '\x0c' ||
  c.toNat = 0x85 || c.toNat = 0xa0 || c.toNat = 0x1680 ||
  (0x2000 ≤ c.toNat && c.toNat ≤ 0x200a) ||
  c.toNat = 0x2028 || c.toNat = 0x2029 || c.toNat = 0x202f ||
  c.toNat = 0x205f || c.toNat = 0x3000

/-- ASCII lower-casing of one character, as Python `str.lower` acts on the
ASCII range (all text the code lower-cases is ASCII). -/
def asciiLowerChar (c : Char) : Char :=
  if 'A' ≤ c && c ≤ 'Z' then Char.ofNat (c.toNat + 32) else c

/-- Case-insensitive character comparison used for `re.IGNORECASE`. -/
def charCIEq (a b : Char) : Bool :=
  asciiLowerChar a = asciiLowerChar b

/-- Python `str.lower` on the ASCII range. -/
def asciiLower (s : String) : String :=
  String.mk (s.data.map asciiLowerChar)

/-- Python `str.strip()` on a character list. -/
def pyStripL (cs : List Char) : List Char :=
  ((cs.dropWhile isPySpace).reverse.dropWhile isPySpace).reverse

/-- Python `str.strip()`. -/
def pyStrip (s : String) : String :=
  String.mk (pyStripL s.data)

/-- One step of `re.sub(r"\s+", " ", s)`: every maximal run of whitespace
characters becomes a single space. -/
def collapseWs : List Char → List Char
  | [] => []
  | [c] => if isPySpace c then [' '] else [c]
  | a :: b :: rest =>
    if isPySpace a then
      if isPySpace b then collapseWs (b :: rest)
      else ' ' :: collapseWs (b :: rest)
    else a :: collapseWs (b :: rest)

/-- `crawler._clean_text`: `re.sub(r"\s+", " ", s).strip()`. -/
def _clean_text (s : String) : String :=
  String.mk (pyStripL (collapseWs s.data))

/-- Boolean prefix test on character lists. -/
def isPrefixOfB : List Char → List Char → Bool
  | [], _ => true
  | _ :: _, [] => false
  | p :: ps, c :: cs => p = c && isPrefixOfB ps cs

/-- Python `needle in hay` substring containment on character lists. -/
def containsSubL (needle : List Char) : List Char → Bool
  | [] => needle.isEmpty
  | c :: rest => isPrefixOfB needle (c :: rest) || containsSubL needle rest

/-- Python `hay.startswith(needle)`. -/
def pyStartsWith (hay needle : String) : Bool :=
  isPrefixOfB needle.data hay.data

/-- Python `hay.endswith(needle)`. -/
def pyEndsWith (hay needle : String) : Bool :=
  isPrefixOfB needle.data.reverse hay.data.reverse

/-- Python `needle in hay`. -/
def pyContains (hay needle : String) : Bool :=
  containsSubL needle.data hay.data

/-! ### The DOM model

BeautifulSoup documents are modelled as rose trees.  `Node`/`NodeList`
are a mutual pair (rather than `List Node`) so that the document
traversals below are structural recursions that the kernel can
evaluate. -/

mutual
inductive Node where
  | text (s : String)
  | elem (tag : String) (attrs : List (String × String)) (children : NodeList)
  deriving Repr
inductive NodeList where
  | nil
  | cons (hd : Node) (tl : NodeList)
  deriving Repr
end

/-- Children of a node as an ordinary list. -/
def NodeList.toList : NodeList → List Node
  | .nil => []
  | .cons n ns => n :: ns.toList

/-- Build a `NodeList` from an ordinary list (used to write concrete
documents). -/
def nodesOf : List Node → NodeList
  | [] => .nil
  | n :: ns => .cons n (nodesOf ns)

/-- Attribute lookup on a BeautifulSoup tag (`tag["key"]`, or the
`key=True` presence test of `find_all`). -/
def getAttr (attrs : List (String × String)) (key : String) : Option String :=
  match attrs.find? (fun p => p.1 = key) with
  | some p => some p.2
  | none => none

mutual
/-- `tag.get_text()`: concatenation of every descendant string, in
document order. -/
def Node.getText : Node → String
  | .text s => s
  | .elem _ _ cs => cs.getText
def NodeList.getText : NodeList → String
  | .nil => ""
  | .cons n ns => n.getText ++ ns.getText
end

mutual
/-- First node in document (preorder) order among a forest and its
descendants that is an `<a>` element carrying an `href` attribute; this
is `td.find("a", href=True)` applied to the children of `td`. -/
def NodeList.findAHref : NodeList → Option Node
  | .nil => none
  | .cons n ns =>
    match n.findAHrefHere with
    | some r => some r
    | none => ns.findAHref
def Node.findAHrefHere : Node → Option Node
  | .text _ => none
  | .elem tag attrs cs =>
    if tag = "a" && (getAttr attrs "href").isSome then some (.elem tag attrs cs)
    else cs.findAHref
end

mutual
/-- All `<a href=...>` elements of a forest, in document (preorder)
order: `soup.find_all("a", href=True)`. -/
def NodeList.findAllAHref : NodeList → List Node
  | .nil => []
  | .cons n ns => n.findAllAHrefHere ++ ns.findAllAHref
def Node.findAllAHrefHere : Node → List Node
  | .text _ => []
  | .elem tag attrs cs =>
    if tag = "a" && (getAttr attrs "href").isSome then
      Node.elem tag attrs cs :: cs.findAllAHref
    else cs.findAllAHref
end

mutual
/-- `soup.select_one("table#listTable tbody#data_list")`: the first
`tbody` with id `data_list` (in document order) that has a strict
ancestor `table` with id `listTable`.  The `inside` flag records whether
such a `table` ancestor is present. -/
def NodeList.selectDataList : Bool → NodeList → Option Node
  | _, .nil => none
  | inside, .cons n ns =>
    match n.selectDataListHere inside with
    | some r => some r
    | none => ns.selectDataList inside
def Node.selectDataListHere : Node → Bool → Option Node
  | .text _, _ => none
  | .elem tag attrs cs, inside =>
    if inside && tag = "tbody" && getAttr attrs "id" = some "data_list" then
      some (.elem tag attrs cs)
    else
      cs.selectDataList (inside || (tag = "table" && getAttr attrs "id" = some "listTable"))
end

/-- `node.find_all(tag, recursive=False)`: the direct element children
with the given tag name, in order. -/
def directChildren (tag : String) (n : Node) : List Node :=
  match n with
  | .text _ => []
  | .elem _ _ cs => cs.toList.filter (fun c =>
      match c with
      | .elem t _ _ => t = tag
      | .text _ => false)

/-! ### The size regular expression

`crawler._guess_size` does
`re.search(r"(\d+(?:\.\d+)?)\s?(GB|GiB|MB|MiB|KB)", text, re.IGNORECASE)`.
The search below implements Python's leftmost-match semantics: starting
positions are tried left to right, and at one position `\d+` is taken
greedily, the fractional group is tried greedily before being dropped,
and the optional space is tried before being dropped.  (Shrinking a
greedy digit run can never rescue a failed continuation here, because the
continuation never starts with a digit, so taking the maximal run is
exact.) -/

/-- Case-insensitive literal match at the head of the input; returns the
consumed input characters (verbatim, original case) and the rest. -/
def matchLitCI : List Char → List Char → Option (List Char × List Char)
  | [], cs => some ([], cs)
  | _ :: _, [] => none
  | p :: ps, c :: cs =>
    if charCIEq p c then
      match matchLitCI ps cs with
      | some (m, r) => some (c :: m, r)
      | none => none
    else none

/-- The unit alternation `GB|GiB|MB|MiB|KB`, tried in pattern order. -/
def sizeUnits : List String := ["GB", "GiB", "MB", "MiB", "KB"]

/-- First alternative of a literal alternation matching at the head of
the input (Python alternation order). -/
def matchFirstLitCI : List String → List Char → Option (List Char)
  | [], _ => none
  | u :: us, cs =>
    match matchLitCI u.data cs with
    | some (m, _) => some m
    | none => matchFirstLitCI us cs

/-- The `\s?(GB|GiB|MB|MiB|KB)` tail of the size pattern at the head of
the input: the optional space is consumed greedily, with fallback. -/
def sizeTail (cs : List Char) : Option (List Char) :=
  match cs with
  | c :: rest =>
    if isPySpace c then
      match matchFirstLitCI sizeUnits rest with
      | some u => some (c :: u)
      | none => matchFirstLitCI sizeUnits cs
    else matchFirstLitCI sizeUnits cs
  | [] => none

/-- The whole size pattern anchored at the head of the input; returns
`m.group(0)` as a character list. -/
def matchSizeAt (cs : List Char) : Option (List Char) :=
  let ds := cs.takeWhile Char.isDigit
  let rest := cs.dropWhile Char.isDigit
  if ds.isEmpty then none
  else
    let withFrac : Option (List Char) :=
      match rest with
      | '.' :: r2 =>
        let fs := r2.takeWhile Char.isDigit
        let r3 := r2.dropWhile Char.isDigit
        if fs.isEmpty then none
        else (sizeTail r3).map (fun t => ds ++ '.' :: (fs ++ t))
      | _ => none
    match withFrac with
    | some m => some m
    | none => (sizeTail rest).map (fun t => ds ++ t)

/-- `re.search` position scan for the size pattern: leftmost starting
position wins. -/
def sizeSearchL : List Char → Option (List Char)
  | [] => none
  | c :: rest =>
    match matchSizeAt (c :: rest) with
    | some m => some m
    | none => sizeSearchL rest

/-- `crawler._guess_size`: the first size token if any, otherwise the
text itself when non-empty (Python `text or "未知大小"`), otherwise the
sentinel. -/
def _guess_size (text : String) : String :=
  match sizeSearchL text.data with
  | some m => String.mk m
  | none => if text = "" then "未知大小" else text

/-! ### The quality regular expressions -/

/-- One alternative of a quality pattern group: a case-insensitive
literal, or `WEB[- ]?suffix` (the `WEB[- ]?DL` / `WEB[- ]?Rip` forms). -/
inductive QAlt where
  | lit (s : String)
  | webOpt (suffix : String)

/-- The `[- ]?suffix` tail of a `WEB[- ]?...` alternative, after `WEB`
has matched (consuming `w`, leaving `r1`): the optional separator (`-`
or a space, the `[- ]?` class) is consumed greedily with fallback. -/
def matchWebTail (w : List Char) (suffix : String) (r1 : List Char) : Option (List Char) :=
  let noSep := (matchLitCI suffix.data r1).map (fun pr => w ++ pr.1)
  match r1 with
  | c :: r2 =>
    if c = '-' || c = ' ' then
      match matchLitCI suffix.data r2 with
      | some (m2, _) => some (w ++ c :: m2)
      | none => noSep
    else noSep
  | [] => noSep

/-- Match one quality alternative at the head of the input, returning
`m.group(0)` verbatim. -/
def matchQAltAt : QAlt → List Char → Option (List Char)
  | .lit p, cs => (matchLitCI p.data cs).map Prod.fst
  | .webOpt suffix, cs =>
    match matchLitCI "WEB".data cs with
    | none => none
    | some (w, r1) => matchWebTail w suffix r1

/-- A pattern group's alternation at one position, alternatives tried in
pattern order. -/
def matchQAltsAt : List QAlt → List Char → Option (List Char)
  | [], _ => none
  | a :: rest, cs =>
    match matchQAltAt a cs with
    | some m => some m
    | none => matchQAltsAt rest cs

/-- `re.search` for one quality pattern group: leftmost starting
position wins, and at one position alternatives are tried in order. -/
def qSearchL (alts : List QAlt) : List Char → Option (List Char)
  | [] => matchQAltsAt alts []
  | c :: rest =>
    match matchQAltsAt alts (c :: rest) with
    | some m => some m
    | none => qSearchL alts rest

/-- Pattern group (a): `2160p|4K|UHD`. -/
def qualityGroup1 : List QAlt := [.lit "2160p", .lit "4K", .lit "UHD"]

/-- Pattern group (b):
`1080p|BDRip|BluRay|WEB[- ]?DL|WEB[- ]?Rip|WEBRip|WEBrip|HEVC|x265|x264`. -/
def qualityGroup2 : List QAlt :=
  [.lit "1080p", .lit "BDRip", .lit "BluRay", .webOpt "DL", .webOpt "Rip",
   .lit "WEBRip", .lit "WEBrip", .lit "HEVC", .lit "x265", .lit "x264"]

/-- Pattern group (c): `720p`. -/
def qualityGroup3 : List QAlt := [.lit "720p"]

/-- The `q_patterns` list of `crawler._guess_quality`, in priority
order. -/
def qualityGroups : List (List QAlt) := [qualityGroup1, qualityGroup2, qualityGroup3]

/-- The `for pat in q_patterns` loop body of `crawler._guess_quality`. -/
def guessQualityLoop : List (List QAlt) → List Char → String
  | [], _ => "unknown"
  | g :: gs, cs =>
    match qSearchL g cs with
    | some m => String.mk m
    | none => guessQualityLoop gs cs

/-- `crawler._guess_quality`. -/
def _guess_quality (text : String) : String :=
  guessQualityLoop qualityGroups text.data

/-! ### Block detection -/

/-- The marker `"i'm not a robot"` (built characterwise for the
apostrophe). -/
def captchaMarkerRobot : String :=
  String.mk ('i' :: '\x27' :: "m not a robot".data)

/-- The `markers` list of `crawler._looks_like_captcha`. -/
def captchaMarkers : List String :=
  [captchaMarkerRobot, "captcha", "visitor-test-form", "visitor_test"]

/-- `crawler._looks_like_captcha`: lower-case the page, then test the
markers for substring containment. -/
def _looks_like_captcha (html : String) : Bool :=
  let lowerHtml := asciiLower html
  captchaMarkers.any (fun m => pyContains lowerHtml m)

/-! ### URL resolution -/

/-- Does the string begin with a URI scheme (`ALPHA (ALPHA|DIGIT|+|-|.)* :`)? -/
def hasSchemeAux : List Char → Bool
  | [] => false
  | c :: rest =>
    if c = ':' then true
    else if c.isAlpha || c.isDigit || c = '+' || c = '-' || c = '.' then hasSchemeAux rest
    else false

/-- Scheme test for `urljoin`. -/
def hasScheme (s : String) : Bool :=
  match s.data with
  | c :: rest => c.isAlpha && hasSchemeAux rest
  | [] => false

/-- `crawler.BASE_URL`. -/
def BASE_URL : String := "https://comicat.org/"

/-- `urllib.parse.urljoin` specialised to the fixed base
`https://comicat.org/` (whose path is `/`), for references without
dot-segments: an empty reference yields the base, a reference with its
own scheme (e.g. `magnet:` or an absolute `https://` URL) is returned
unchanged, protocol-relative and root-relative references are resolved
against the base's scheme and authority, and any other reference is
resolved against the base path `/`. -/
def urljoin (base rel : String) : String :=
  if rel = "" then base
  else if hasScheme rel then rel
  else if pyStartsWith rel "//" then "https:" ++ rel
  else if pyStartsWith rel "/" then "https://comicat.org" ++ rel
  else "https://comicat.org/" ++ rel

/-- `crawler.COMICAT_TODAY_URL = urljoin(BASE_URL, "today-1.html")`. -/
def COMICAT_TODAY_URL : String := urljoin BASE_URL "today-1.html"

deriving instance DecidableEq for Except

/-! ### Timezone-aware datetimes

All datetimes the crawler builds carry `tzinfo=ZoneInfo("Asia/Taipei")`,
a fixed `+08:00` offset; the offset is therefore implicit in the record
and rendered explicitly by `isoformat`. -/

/-- A Python `datetime` in the fixed Asia/Taipei zone. -/
structure PyDateTime where
  year : Nat
  month : Nat
  day : Nat
  hour : Nat
  minute : Nat
  second : Nat
  micro : Nat
  deriving Repr, DecidableEq

/-- Gregorian leap year rule. -/
def isLeapYear (y : Nat) : Bool :=
  (y % 4 = 0 && y % 100 ≠ 0) || y % 400 = 0

/-- Days in a month. -/
def daysInMonth (y m : Nat) : Nat :=
  if m = 2 then (if isLeapYear y then 29 else 28)
  else if m = 4 || m = 6 || m = 9 || m = 11 then 30
  else 31

/-- The field ranges Python's `datetime` accepts. -/
def PyDateTime.isValid (d : PyDateTime) : Bool :=
  1 ≤ d.year && d.year ≤ 9999 && 1 ≤ d.month && d.month ≤ 12 &&
  1 ≤ d.day && d.day ≤ daysInMonth d.year d.month &&
  d.hour ≤ 23 && d.minute ≤ 59 && d.second ≤ 59 && d.micro ≤ 999999

/-- The `datetime(year, month, day, hour, minute, tzinfo=TZ)` constructor
with Python's field validation: out-of-range fields raise `ValueError`,
embedded as `.error`, in the order Python checks them. -/
def pyDatetimeMk (y mo d hh mm : Nat) : Except String PyDateTime :=
  if y < 1 ∨ 9999 < y then .error "year is out of range"
  else if mo < 1 ∨ 12 < mo then .error "month must be in 1..12"
  else if d < 1 ∨ daysInMonth y mo < d then .error "day is out of range for month"
  else if 23 < hh then .error "hour must be in 0..23"
  else if 59 < mm then .error "minute must be in 0..59"
  else .ok ⟨y, mo, d, hh, mm, 0, 0⟩

/-- The calendar date one day before the given one:
`(now - timedelta(days=1)).date()` (wall-clock arithmetic). -/
def prevDate (y m d : Nat) : Nat × Nat × Nat :=
  if 1 < d then (y, m, d - 1)
  else if 1 < m then (y, m - 1, daysInMonth y (m - 1))
  else (y - 1, 12, 31)

/-- Decimal rendering of a number, zero-padded to a width. -/
def padNum (width n : Nat) : String :=
  let s := toString n
  String.mk (List.replicate (width - s.length) '0') ++ s

/-- `datetime.isoformat()` for an Asia/Taipei datetime: seconds always
rendered, microseconds only when non-zero, explicit `+08:00` offset. -/
def PyDateTime.isoformat (d : PyDateTime) : String :=
  padNum 4 d.year ++ "-" ++ padNum 2 d.month ++ "-" ++ padNum 2 d.day ++ "T" ++
  padNum 2 d.hour ++ ":" ++ padNum 2 d.minute ++ ":" ++ padNum 2 d.second ++
  (if d.micro = 0 then "" else "." ++ padNum 6 d.micro) ++ "+08:00"

/-! ### The date-cell regular expressions

`crawler._parse_cn_time` anchors
`^(今天|昨天)\s+(\d{1,2}):(\d{2})$` and
`^(\d{4})-(\d{1,2})-(\d{1,2})\s+(\d{1,2}):(\d{2})$` with `re.match`
against the stripped cell text (so `$` is a true end anchor).  A greedy
`\d{1,2}` is implemented by trying the two-digit candidate before the
one-digit candidate, each with the full continuation — exactly Python's
backtracking. -/

/-- Numeric value of an ASCII digit. -/
def toDigit (c : Char) : Nat := c.toNat - 48

/-- Candidates for a greedy `\d{1,2}`, longest first, with the rest of
the input for each. -/
def digits12 : List Char → List (Nat × List Char)
  | a :: b :: rest =>
    if a.isDigit && b.isDigit then
      [(toDigit a * 10 + toDigit b, rest), (toDigit a, b :: rest)]
    else if a.isDigit then [(toDigit a, b :: rest)]
    else []
  | [a] => if a.isDigit then [(toDigit a, [])] else []
  | [] => []

/-- `\d{4}` at the head of the input. -/
def digits4 : List Char → Option (Nat × List Char)
  | a :: b :: c :: d :: rest =>
    if a.isDigit && b.isDigit && c.isDigit && d.isDigit then
      some (((toDigit a * 10 + toDigit b) * 10 + toDigit c) * 10 + toDigit d, rest)
    else none
  | _ => none

/-- First alternative (in order) whose continuation succeeds. -/
def firstSome {α β : Type} (f : α → Option β) : List α → Option β
  | [] => none
  | a :: rest =>
    match f a with
    | some b => some b
    | none => firstSome f rest

/-- `\s+` at the head of the input (the following pattern element is a
digit, so maximal munch is exact). -/
def spanSpaces1 : List Char → Option (List Char)
  | c :: rest => if isPySpace c then some (rest.dropWhile isPySpace) else none
  | [] => none

/-- `:(\d{2})$` — a colon, exactly two digits, end of input. -/
def matchColonMMEnd : List Char → Option Nat
  | ':' :: a :: b :: [] =>
    if a.isDigit && b.isDigit then some (toDigit a * 10 + toDigit b) else none
  | _ => none

/-- `\s+(\d{1,2}):(\d{2})$` — the shared tail of both date patterns. -/
def matchHHMMEnd (cs : List Char) : Option (Nat × Nat) :=
  match spanSpaces1 cs with
  | none => none
  | some rest =>
    firstSome (fun pr => (matchColonMMEnd pr.2).map (fun mm => (pr.1, mm))) (digits12 rest)

/-- `^(今天|昨天)\s+(\d{1,2}):(\d{2})$`; `true` for 今天 (today). -/
def matchRel (cs : List Char) : Option (Bool × Nat × Nat) :=
  match cs with
  | '今' :: '天' :: rest => (matchHHMMEnd rest).map (fun p => (true, p))
  | '昨' :: '天' :: rest => (matchHHMMEnd rest).map (fun p => (false, p))
  | _ => none

/-- `^(\d{4})-(\d{1,2})-(\d{1,2})\s+(\d{1,2}):(\d{2})$`. -/
def matchAbs (cs : List Char) : Option (Nat × Nat × Nat × Nat × Nat) :=
  match digits4 cs with
  | some (y, r1) =>
    match r1 with
    | '-' :: r2 =>
      firstSome (fun moPr =>
        match moPr.2 with
        | '-' :: r3 =>
          firstSome (fun dPr =>
            (matchHHMMEnd dPr.2).map (fun hm => (y, moPr.1, dPr.1, hm.1, hm.2)))
            (digits12 r3)
        | _ => none) (digits12 r2)
    | _ => none
  | none => none

/-- `crawler._parse_cn_time(cell_text, now)`: strip, try the relative
pattern (building today's or yesterday's date with the given time), then
the absolute pattern, and fall back to `now` itself.  A matching text
whose fields are out of range raises `ValueError` (`Except.error`), as
`datetime(...)` does. -/
def _parse_cn_time (cellText : String) (now : PyDateTime) : Except String PyDateTime :=
  let t := pyStrip cellText
  match matchRel t.data with
  | some (isToday, hh, mm) =>
    let base :=
      if isToday then (now.year, now.month, now.day)
      else prevDate now.year now.month now.day
    pyDatetimeMk base.1 base.2.1 base.2.2 hh mm
  | none =>
    match matchAbs t.data with
    | some (y, mo, d, hh, mm) => pyDatetimeMk y mo d hh mm
    | none => .ok now

/-! ### Records and the HTTP client -/

/-- `models.AnimeInfo` (the spec's ReleaseRecord): six required string
fields. -/
structure AnimeInfo where
  title : String
  url : String
  size : String
  quality : String
  date : String
  source : String
  deriving Repr, DecidableEq

/-- A fetched page: the raw response text (`resp.text`) together with
the DOM that BeautifulSoup parses from it. -/
structure Page where
  raw : String
  dom : Node

/-- An `httpx.Client` handle: whether the `with` block has already
closed it, and a response oracle giving, per URL, either `none` (the
request raises a network error) or a status code and body. -/
structure HttpClient where
  closed : Bool
  respond : String → Option (Nat × Page)

/-- The `href` attribute of an element (`a["href"]`; the callers below
only apply it to nodes produced by `find`/`find_all` with
`href=True`). -/
def hrefOf : Node → String
  | .elem _ attrs _ => (getAttr attrs "href").getD ""
  | .text _ => ""

/-! ### Detail-page link extraction -/

/-- The stripped `href` targets of `soup.find_all("a", href=True)`, in
document order. -/
def pageHrefs (detail : Node) : List String :=
  (NodeList.findAllAHref (nodesOf [detail])).map (fun a => pyStrip (hrefOf a))

/-- First loop of `crawler._extract_magnet_from_detail`: the first href
starting with the magnet-URI prefix. -/
def findMagnetHref : List String → Option String
  | [] => none
  | h :: rest =>
    if pyStartsWith h "magnet:?xt=urn:btih:" then some h else findMagnetHref rest

/-- The second loop's test: `.torrent` suffix or a `download` substring,
case-insensitively. -/
def isDownloadHref (h : String) : Bool :=
  pyEndsWith (asciiLower h) ".torrent" || pyContains (asciiLower h) "download"

/-- Second loop of `crawler._extract_magnet_from_detail`. -/
def findDownloadHref : List String → Option String
  | [] => none
  | h :: rest => if isDownloadHref h then some h else findDownloadHref rest

/-- `crawler._extract_magnet_from_detail` on the parsed detail page:
first magnet link, else first torrent/download link, else `""`. -/
def _extract_magnet_from_detail (detail : Node) : String :=
  let hrefs := pageHrefs detail
  match findMagnetHref hrefs with
  | some m => m
  | none =>
    match findDownloadHref hrefs with
    | some d => d
    | none => ""

/-- `crawler._fetch_detail_link(client, url)`.  A `get` on a closed
client raises `RuntimeError` and a network failure raises a transport
error; both land in the bare `except` and return `url`.  A non-200
status falls through to `return url`, and on a 200 the result is
`magnet or url`. -/
def _fetch_detail_link (client : HttpClient) (url : String) : String :=
  if client.closed then url
  else
    match client.respond url with
    | none => url
    | some (status, page) =>
      if status = 200 then
        let magnet := _extract_magnet_from_detail page.dom
        if magnet = "" then url else magnet
      else url

/-! ### The table parser -/

/-- The children of a node as a `NodeList` (`find` starts from the
children, the tag itself is not a candidate). -/
def childrenOf : Node → NodeList
  | .text _ => .nil
  | .elem _ _ cs => cs

/-- The `for tr in rows` loop of `crawler._parse_today_table`, carrying
`detail_fetch_count`.  Per row: fewer than 4 direct `td` children →
skip; parse the date cell (a `ValueError` from `datetime` propagates);
no `<a href>` in the third cell → skip; otherwise build one `AnimeInfo`,
resolving the detail link only while the counter is below `max_detail`
and a client was supplied. -/
def parseRows (client : Option HttpClient) (maxDetail : Nat) (now : PyDateTime) :
    List Node → Nat → Except String (List AnimeInfo)
  | [], _ => .ok []
  | tr :: rest, cnt =>
    let tds := directChildren "td" tr
    if tds.length < 4 then parseRows client maxDetail now rest cnt
    else
      match _parse_cn_time (_clean_text (tds.getD 0 (Node.text "")).getText) now with
      | .error e => .error e
      | .ok dt =>
        match NodeList.findAHref (childrenOf (tds.getD 2 (Node.text ""))) with
        | none => parseRows client maxDetail now rest cnt
        | some a =>
          let title := _clean_text a.getText
          let detailUrl := urljoin BASE_URL (pyStrip (hrefOf a))
          let sizeText := _guess_size (_clean_text (tds.getD 3 (Node.text "")).getText)
          let quality := _guess_quality title
          let resolved :=
            match client with
            | some c =>
              if cnt < maxDetail then (_fetch_detail_link c detailUrl, cnt + 1)
              else (detailUrl, cnt)
            | none => (detailUrl, cnt)
          match parseRows client maxDetail now rest resolved.2 with
          | .error e => .error e
          | .ok items =>
            .ok ({ title := title, url := resolved.1, size := sizeText,
                   quality := quality, date := dt.isoformat,
                   source := "comicat.org" } :: items)

/-- `crawler._parse_today_table(html, client_for_detail, max_detail)`:
select `table#listTable tbody#data_list` (empty list when absent), then
walk its direct `tr` children with the counter starting at 0.  `now` is
the single `datetime.now(TZ)` the function takes before the loop. -/
def _parse_today_table (doc : Node) (client : Option HttpClient) (maxDetail : Nat)
    (now : PyDateTime) : Except String (List AnimeInfo) :=
  match Node.selectDataListHere doc false with
  | none => .ok []
  | some tbody => parseRows client maxDetail now (directChildren "tr" tbody) 0

/-! ### The fetch orchestrator -/

/-- Diagnostic emitted when the live page is blocked and the snapshot
file is read back ("blocked by captcha online, parsing the local cache
last_comicat_page.html"). -/
def debugCacheMsg : String := "线上页面被验证码拦截，使用本地缓存 last_comicat_page.html 解析"

/-- Diagnostic for the blocked-and-no-cache early return. -/
def debugNoCacheMsg : String := "仍然是验证码/人机校验页面（没有本地缓存可用，请检查/更新 COMICAT_COOKIE）"

/-- Diagnostic for a parsed page with no extracted rows. -/
def debugNoItemsMsg : String := "页面结构已加载，但没有从表格中解析到条目（可能页面改版或选择器不匹配）"

/-- Outcome of the snapshot-file handling of `scrape_comicat_today`
(crawler.py lines 206-226): the final content of
`last_comicat_page.html`, the page whose text the function goes on to
parse (`none` for the blocked-and-no-cache early return), and the
`debug_msg`. -/
structure SnapResult where
  snapshotFile : Option Page
  htmlForParse : Option Page
  debugMsg : String

/-- The snapshot-file handling of `scrape_comicat_today`, given the
fetched listing page, the prior content of `last_comicat_page.html`,
and whether writes to it succeed (the code wraps each write in
`try/except`).  Line 207 writes the raw fetched body *before* the
captcha test; a blocked body is then re-read from that same file. -/
def snapshotStep (fetched : Page) (snapshot0 : Option Page) (writeOk : Bool) : SnapResult :=
  let snap1 := if writeOk then some fetched else snapshot0
  if _looks_like_captcha fetched.raw then
    match snap1 with
    | some cached => ⟨snap1, some cached, debugCacheMsg⟩
    | none => ⟨snap1, none, debugNoCacheMsg⟩
  else
    let snap2 := if writeOk then some fetched else snap1
    ⟨snap2, some fetched, "OK"⟩

/-- Environment of one `scrape_comicat_today` invocation: the listing
page the initial GET returns, the prior snapshot file, whether snapshot
writes succeed, the response oracle for detail-page GETs, and the
ambient `datetime.now(TZ)`. -/
structure ScrapeEnv where
  fetched : Page
  snapshot0 : Option Page
  writeOk : Bool
  detailRespond : String → Option (Nat × Page)
  now : PyDateTime

/-- The client object as it stands when line 229 runs: the `with`
block of crawler.py line 202 ends at line 226, so `_parse_today_table`
is invoked *after* `client` has been closed. -/
def clientAtParseTime (env : ScrapeEnv) : HttpClient :=
  { closed := true, respond := env.detailRespond }

/-- `crawler.scrape_comicat_today` after a successful initial GET:
snapshot handling, then the table parse (with the already-closed
client and `max_detail=12`), the empty-items diagnostic, and the
`items[:5]` truncation.  Date-cell `ValueError`s propagate as
`.error`. -/
def scrape_comicat_today (env : ScrapeEnv) : Except String (List AnimeInfo × String) :=
  let s := snapshotStep env.fetched env.snapshot0 env.writeOk
  match s.htmlForParse with
  | none => .ok ([], s.debugMsg)
  | some page =>
    match _parse_today_table page.dom (some (clientAtParseTime env)) 12 env.now with
    | .error e => .error e
    | .ok items =>
      if items.isEmpty then .ok ([], debugNoItemsMsg)
      else .ok (items.take 5, s.debugMsg)

/-! ### The service endpoint -/

/-- The JSON value a `main.scrape_latest` invocation returns: the
structured error payload, a serialized list of records, or a single
serialized record. -/
inductive ApiResponse where
  | errorPayload (msg : String)
  | jsonList (items : List AnimeInfo)
  | jsonRecord (r : AnimeInfo)
  deriving Repr, DecidableEq

/-- Python truthiness of the two-element tuple
`results = scrape_comicat_today()`: a non-empty tuple is always truthy,
so `not results` is always `False`. -/
def pyTruthyPair (p : List AnimeInfo × String) : Bool :=
  let _ := p
  true

/-- `main.scrape_latest`, over the outcome of `scrape_comicat_today()`
(`.error` = the call raised).  `results` is the `(items, debug_msg)`
tuple: the `if not results` guard tests the tuple (never taken), and
`results[0]` indexes the tuple, yielding the whole items list. -/
def scrape_latest (res : Except String (List AnimeInfo × String)) : ApiResponse :=
  match res with
  | .error e => .errorPayload ("Scrape failed: " ++ e)
  | .ok results =>
    if pyTruthyPair results = false then .errorPayload "No new anime releases today."
    else .jsonList results.1

/-! ### Row-level view of the parser

The following definitions name, for one `tr` row, the quantities the
parser computes, so that the theorems below can state what
`_parse_today_table` produces row by row. -/

/-- The direct `td` children of a row. -/
def rowTds (tr : Node) : List Node := directChildren "td" tr

/-- The title hyperlink of a row: `tds[2].find("a", href=True)`. -/
def rowTitleA (tr : Node) : Option Node :=
  NodeList.findAHref (childrenOf ((rowTds tr).getD 2 (Node.text "")))

/-- A row is retained exactly when it has at least 4 direct cells and
its third cell contains a hyperlink. -/
def rowRetained (tr : Node) : Bool :=
  4 ≤ (rowTds tr).length && (rowTitleA tr).isSome

/-- The cleaned text of the title hyperlink. -/
def rowTitle (tr : Node) : String :=
  match rowTitleA tr with
  | some a => _clean_text a.getText
  | none => ""

/-- The unresolved detail-page URL of a row (the hyperlink target
resolved against the base URL). -/
def rowDetailUrl (tr : Node) : String :=
  match rowTitleA tr with
  | some a => urljoin BASE_URL (pyStrip (hrefOf a))
  | none => ""

/-- The size field computed from the fourth cell. -/
def rowSizeText (tr : Node) : String :=
  _guess_size (_clean_text ((rowTds tr).getD 3 (Node.text "")).getText)

/-- The cleaned text of the first (publish time) cell. -/
def rowDateText (tr : Node) : String :=
  _clean_text ((rowTds tr).getD 0 (Node.text "")).getText

/-- The datetime a retained row carries when its date cell did not raise
(equal to `_parse_cn_time`'s result in that case). -/
def cnTimeOrNow (t : String) (now : PyDateTime) : PyDateTime :=
  ((_parse_cn_time t now).toOption).getD now

/-- The URL the `i`-th retained row (0-based) ends up with under cap
`k`: the resolver's result for the first `k` retained rows when a client
is supplied, the unresolved detail URL afterwards. -/
def resolvedUrl (client : Option HttpClient) (k i : Nat) (detailUrl : String) : String :=
  match client with
  | some c => if i < k then _fetch_detail_link c detailUrl else detailUrl
  | none => detailUrl

/-- The record the parser builds for the `i`-th retained row. -/
def retainedRecord (client : Option HttpClient) (k : Nat) (now : PyDateTime)
    (i : Nat) (tr : Node) : AnimeInfo :=
  { title := rowTitle tr
    url := resolvedUrl client k i (rowDetailUrl tr)
    size := rowSizeText tr
    quality := _guess_quality (rowTitle tr)
    date := (cnTimeOrNow (rowDateText tr) now).isoformat
    source := "comicat.org" }

/-- Map with an explicit starting index. -/
def mapIdxFrom {α β : Type} (f : Nat → α → β) : Nat → List α → List β
  | _, [] => []
  | n, x :: xs => f n x :: mapIdxFrom f (n + 1) xs

theorem retainedRecord_none_idx (k : Nat) (now : PyDateTime) (i j : Nat) (tr : Node) :
    retainedRecord none k now i tr = retainedRecord none k now j tr := rfl

theorem mapIdxFrom_none (k : Nat) (now : PyDateTime) :
    ∀ (xs : List Node) (a b : Nat),
      mapIdxFrom (retainedRecord none k now) a xs = mapIdxFrom (retainedRecord none k now) b xs
  | [], _, _ => rfl
  | x :: xs, a, b => by
    simp only [mapIdxFrom]
    exact congrArg₂ _ (retainedRecord_none_idx k now a b x) (mapIdxFrom_none k now xs (a + 1) (b + 1))

theorem retainedRecord_some_ge (c : HttpClient) (k : Nat) (now : PyDateTime)
    {i j : Nat} (hi : k ≤ i) (hj : k ≤ j) (tr : Node) :
    retainedRecord (some c) k now i tr = retainedRecord (some c) k now j tr := by
  simp [retainedRecord, resolvedUrl, Nat.not_lt.2 hi, Nat.not_lt.2 hj]

theorem mapIdxFrom_some_ge (c : HttpClient) (k : Nat) (now : PyDateTime) :
    ∀ (xs : List Node) {a b : Nat}, k ≤ a → k ≤ b →
      mapIdxFrom (retainedRecord (some c) k now) a xs =
        mapIdxFrom (retainedRecord (some c) k now) b xs
  | [], _, _, _, _ => rfl
  | x :: xs, a, b, ha, hb => by
    simp only [mapIdxFrom]
    exact congrArg₂ _ (retainedRecord_some_ge c k now ha hb x)
      (mapIdxFrom_some_ge c k now xs (Nat.le_succ_of_le ha) (Nat.le_succ_of_le hb))


/-- Structural characterisation of the row loop: whenever it returns
(no date-cell `ValueError`), the result is exactly one record per
retained row, in document order, the `i`-th retained row resolved
according to the counter it meets. -/
theorem parseRows_ok_eq (c : Option HttpClient) (k : Nat) (now : PyDateTime) :
    ∀ (rows : List Node) (cnt : Nat) (l : List AnimeInfo),
      parseRows c k now rows cnt = Except.ok l →
      l = mapIdxFrom (retainedRecord c k now) cnt (rows.filter rowRetained) := by
  intro rows
  induction rows with
  | nil =>
    intro cnt l h
    simp only [parseRows] at h
    cases h
    rfl
  | cons tr rest ih =>
    intro cnt l h
    simp only [parseRows] at h
    by_cases h4 : (directChildren "td" tr).length < 4
    · rw [if_pos h4] at h
      have hret : rowRetained tr = false := by
        unfold rowRetained rowTds
        simp [Nat.not_le.2 h4]
      rw [List.filter_cons_of_neg (by simp [hret])]
      exact ih cnt l h
    · rw [if_neg h4] at h
      rcases hdt : _parse_cn_time (_clean_text ((directChildren "td" tr).getD 0 (Node.text "")).getText) now with e | dt
      · rw [hdt] at h; cases h
      · rw [hdt] at h
        rcases ha : NodeList.findAHref (childrenOf ((directChildren "td" tr).getD 2 (Node.text ""))) with _ | a
        · rw [ha] at h
          have hret : rowRetained tr = false := by
            unfold rowRetained rowTitleA rowTds
            rw [ha]
            simp
          rw [List.filter_cons_of_neg (by simp [hret])]
          exact ih cnt l h
        · rw [ha] at h
          have hret : rowRetained tr = true := by
            unfold rowRetained rowTitleA rowTds
            rw [ha]
            simp [Nat.not_lt.1 h4]
          rw [List.filter_cons_of_pos (by simp [hret])]
          have hTitle : rowTitle tr = _clean_text a.getText := by
            unfold rowTitle rowTitleA rowTds
            rw [ha]
          have hDetail : rowDetailUrl tr = urljoin BASE_URL (pyStrip (hrefOf a)) := by
            unfold rowDetailUrl rowTitleA rowTds
            rw [ha]
          have hDate : cnTimeOrNow (rowDateText tr) now = dt := by
            unfold cnTimeOrNow rowDateText rowTds
            rw [hdt]
            rfl
          rcases c with _ | cl
          · dsimp only at h
            rcases hrest : parseRows none k now rest cnt with e | items
            · rw [hrest] at h; cases h
            · rw [hrest] at h
              cases h
              rw [mapIdxFrom]
              refine congrArg₂ _ ?_ ?_
              · simp [retainedRecord, resolvedUrl, hTitle, hDetail, hDate, rowSizeText, rowTds]
              · rw [ih cnt items hrest]
                exact mapIdxFrom_none k now _ cnt (cnt + 1)
          · dsimp only at h
            by_cases hk : cnt < k
            · rw [if_pos hk] at h
              rcases hrest : parseRows (some cl) k now rest (cnt + 1) with e | items
              · rw [hrest] at h; cases h
              · rw [hrest] at h
                cases h
                rw [mapIdxFrom]
                refine congrArg₂ _ ?_ ?_
                · simp [retainedRecord, resolvedUrl, hk, hTitle, hDetail, hDate, rowSizeText, rowTds]
                · exact ih (cnt + 1) items hrest
            · rw [if_neg hk] at h
              rcases hrest : parseRows (some cl) k now rest cnt with e | items
              · rw [hrest] at h; cases h
              · rw [hrest] at h
                cases h
                rw [mapIdxFrom]
                refine congrArg₂ _ ?_ ?_
                · simp [retainedRecord, resolvedUrl, hk, hTitle, hDetail, hDate, rowSizeText, rowTds]
                · rw [ih cnt items hrest]
                  exact mapIdxFrom_some_ge cl k now _ (Nat.not_lt.1 hk) (Nat.le_succ_of_le (Nat.not_lt.1 hk))

/-! ### Search correctness lemmas -/

/-- Does the size pattern match at any starting position? -/
def sizeAnyL : List Char → Bool
  | [] => false
  | c :: rest => (matchSizeAt (c :: rest)).isSome || sizeAnyL rest

theorem sizeSearchL_isSome_eq : ∀ cs : List Char, (sizeSearchL cs).isSome = sizeAnyL cs := by
  intro cs
  induction cs with
  | nil => rfl
  | cons c rest ih =>
    simp only [sizeSearchL, sizeAnyL]
    rcases hm : matchSizeAt (c :: rest) with _ | m <;> simp [hm, ih]

theorem sizeSearchL_leftmost : ∀ (cs : List Char) (m : List Char), sizeSearchL cs = some m →
    ∃ i, matchSizeAt (cs.drop i) = some m ∧ ∀ j, j < i → matchSizeAt (cs.drop j) = none := by
  intro cs
  induction cs with
  | nil => intro m h; simp [sizeSearchL] at h
  | cons c rest ih =>
    intro m h
    simp only [sizeSearchL] at h
    rcases hm : matchSizeAt (c :: rest) with _ | m0
    · rw [hm] at h
      obtain ⟨i, hi, hj⟩ := ih m h
      refine ⟨i + 1, by simpa using hi, ?_⟩
      intro j hji
      match j with
      | 0 => simpa using hm
      | j' + 1 => simpa using hj j' (Nat.lt_of_succ_lt_succ hji)
    · rw [hm] at h
      cases h
      exact ⟨0, hm, fun j hj => absurd hj (Nat.not_lt_zero j)⟩

theorem matchSizeAt_ne_nil : ∀ (cs m : List Char), matchSizeAt cs = some m → m ≠ [] := by
  intro cs m h
  have hds : ¬(cs.takeWhile Char.isDigit).isEmpty → cs.takeWhile Char.isDigit ≠ [] := by
    intro hne hnil
    rw [hnil] at hne
    exact hne rfl
  unfold matchSizeAt at h
  dsimp only at h
  split at h
  · cases h
  next hne =>
    split at h
    next m0 hw =>
      cases h
      split at hw
      next r2 =>
        split at hw
        · cases hw
        · rcases Option.map_eq_some'.1 hw with ⟨t, _, rfl⟩
          simp
      next => cases hw
    next hw =>
      rcases Option.map_eq_some'.1 h with ⟨t, _, rfl⟩
      simp [hds hne]

theorem stringMk_ne_empty (m : List Char) (hm : m ≠ []) : String.mk m ≠ "" := by
  intro h
  exact hm (by simpa using congrArg String.data h)

/-- C10: `guessSize` returns the sentinel `"未知大小"` exactly on the empty
input; a non-empty input with no size token anywhere is returned
unchanged; and an input with a size token yields the leftmost match of
the pattern (with no earlier starting position matching). -/
theorem guess_size_spec :
    _guess_size "" = "未知大小" ∧
    (∀ t : String, t ≠ "" → sizeAnyL t.data = false → _guess_size t = t) ∧
    (∀ (t : String) (m : List Char), sizeSearchL t.data = some m →
      _guess_size t = String.mk m ∧
      ∃ i, matchSizeAt (t.data.drop i) = some m ∧
        ∀ j, j < i → matchSizeAt (t.data.drop j) = none) := by
  refine ⟨rfl, ?_, ?_⟩
  · intro t ht hany
    have hnone : sizeSearchL t.data = none := by
      have := sizeSearchL_isSome_eq t.data
      rw [hany] at this
      exact Option.not_isSome_iff_eq_none.1 (by simp [this])
    unfold _guess_size
    rw [hnone]
    simp [ht]
  · intro t m h
    constructor
    · unfold _guess_size
      rw [h]
    · exact sizeSearchL_leftmost t.data m h

theorem guess_size_spec_witness :
    ("nonsense text" : String) ≠ "" ∧ sizeAnyL "nonsense text".data = false ∧
    _guess_size "nonsense text" = "nonsense text" ∧
    sizeSearchL "rip 567.6MB x 1GB".data = some "567.6MB".data ∧
    _guess_size "rip 567.6MB x 1GB" = "567.6MB" :=
  ⟨by decide, by decide,
   guess_size_spec.2.1 "nonsense text" (by decide) (by decide),
   by decide,
   (guess_size_spec.2.2 "rip 567.6MB x 1GB" "567.6MB".data (by decide)).1⟩

/-- Does a quality pattern group match at any starting position
(including the end-of-string position)? -/
def qAnyL (alts : List QAlt) : List Char → Bool
  | [] => (matchQAltsAt alts []).isSome
  | c :: rest => (matchQAltsAt alts (c :: rest)).isSome || qAnyL alts rest

theorem qSearchL_isSome_eq (alts : List QAlt) :
    ∀ cs : List Char, (qSearchL alts cs).isSome = qAnyL alts cs := by
  intro cs
  induction cs with
  | nil => rfl
  | cons c rest ih =>
    simp only [qSearchL, qAnyL]
    rcases hm : matchQAltsAt alts (c :: rest) with _ | m <;> simp [hm, ih]

theorem qAny_false_none (alts : List QAlt) (cs : List Char) (h : qAnyL alts cs = false) :
    qSearchL alts cs = none := by
  have := qSearchL_isSome_eq alts cs
  rw [h] at this
  exact Option.not_isSome_iff_eq_none.1 (by simp [this])

theorem qAny_true_some (alts : List QAlt) (cs : List Char) (h : qAnyL alts cs = true) :
    ∃ m, qSearchL alts cs = some m := by
  have := qSearchL_isSome_eq alts cs
  rw [h] at this
  exact Option.isSome_iff_exists.1 this

theorem qSearchL_occurs (alts : List QAlt) :
    ∀ (cs m : List Char), qSearchL alts cs = some m →
      ∃ i, matchQAltsAt alts (cs.drop i) = some m := by
  intro cs
  induction cs with
  | nil => intro m h; exact ⟨0, h⟩
  | cons c rest ih =>
    intro m h
    simp only [qSearchL] at h
    rcases hm : matchQAltsAt alts (c :: rest) with _ | m0
    · rw [hm] at h
      obtain ⟨i, hi⟩ := ih m h
      exact ⟨i + 1, by simpa using hi⟩
    · rw [hm] at h
      cases h
      exact ⟨0, hm⟩

/-- C8: `guessQuality` evaluates its three pattern groups in strict
priority order and returns a substring of the text matched by the first
group that matches anywhere in it (`"unknown"` when none does); in
particular a text with `1080p` before `2160p` yields the
2160p-group match. -/
theorem guess_quality_priority :
    (∀ t : String, qAnyL qualityGroup1 t.data = true →
      ∃ i, matchQAltsAt qualityGroup1 (t.data.drop i) = some (_guess_quality t).data) ∧
    (∀ t : String, qAnyL qualityGroup1 t.data = false → qAnyL qualityGroup2 t.data = true →
      ∃ i, matchQAltsAt qualityGroup2 (t.data.drop i) = some (_guess_quality t).data) ∧
    (∀ t : String, qAnyL qualityGroup1 t.data = false → qAnyL qualityGroup2 t.data = false →
      qAnyL qualityGroup3 t.data = true →
      ∃ i, matchQAltsAt qualityGroup3 (t.data.drop i) = some (_guess_quality t).data) ∧
    (∀ t : String, qAnyL qualityGroup1 t.data = false → qAnyL qualityGroup2 t.data = false →
      qAnyL qualityGroup3 t.data = false → _guess_quality t = "unknown") ∧
    _guess_quality "Show 1080p BDRip episode 2160p HDR" = "2160p" := by
  refine ⟨?_, ?_, ?_, ?_, by decide⟩
  · intro t h1
    obtain ⟨m, hm⟩ := qAny_true_some _ _ h1
    have hq : _guess_quality t = String.mk m := by
      unfold _guess_quality qualityGroups
      simp only [guessQualityLoop]
      rw [hm]
    rw [hq]
    exact qSearchL_occurs _ _ m hm
  · intro t h1 h2
    obtain ⟨m, hm⟩ := qAny_true_some _ _ h2
    have hq : _guess_quality t = String.mk m := by
      unfold _guess_quality qualityGroups
      simp only [guessQualityLoop]
      rw [qAny_false_none _ _ h1, hm]
    rw [hq]
    exact qSearchL_occurs _ _ m hm
  · intro t h1 h2 h3
    obtain ⟨m, hm⟩ := qAny_true_some _ _ h3
    have hq : _guess_quality t = String.mk m := by
      unfold _guess_quality qualityGroups
      simp only [guessQualityLoop]
      rw [qAny_false_none _ _ h1, qAny_false_none _ _ h2, hm]
    rw [hq]
    exact qSearchL_occurs _ _ m hm
  · intro t h1 h2 h3
    unfold _guess_quality qualityGroups
    simp only [guessQualityLoop]
    rw [qAny_false_none _ _ h1, qAny_false_none _ _ h2, qAny_false_none _ _ h3]

theorem guess_quality_priority_witness :
    qAnyL qualityGroup1 "x 1080p then 2160p".data = true ∧
    (∃ i, matchQAltsAt qualityGroup1 ("x 1080p then 2160p".data.drop i) =
      some (_guess_quality "x 1080p then 2160p").data) ∧
    qAnyL qualityGroup1 "only 720p here".data = false ∧
    qAnyL qualityGroup2 "only 720p here".data = false ∧
    qAnyL qualityGroup3 "only 720p here".data = true ∧
    (∃ i, matchQAltsAt qualityGroup3 ("only 720p here".data.drop i) =
      some (_guess_quality "only 720p here").data) :=
  ⟨by decide,
   guess_quality_priority.1 "x 1080p then 2160p" (by decide),
   by decide, by decide, by decide,
   guess_quality_priority.2.2.1 "only 720p here" (by decide) (by decide) (by decide)⟩

/-! ### C6 lemmas and theorems -/

/-- A fixed `now`: 2025-10-26T10:00:00+08:00. -/
def cnNow : PyDateTime := ⟨2025, 10, 26, 10, 0, 0, 0⟩

theorem daysInMonth_pos (y m : Nat) : 1 ≤ daysInMonth y m := by
  unfold daysInMonth
  repeat' split
  all_goals omega

theorem prevDate_valid (y m d : Nat) (hy : 2 ≤ y) (hy2 : y ≤ 9999) (hm1 : 1 ≤ m)
    (hm2 : m ≤ 12) (hd1 : 1 ≤ d) (hd2 : d ≤ daysInMonth y m) :
    1 ≤ (prevDate y m d).1 ∧ (prevDate y m d).1 ≤ 9999 ∧
    1 ≤ (prevDate y m d).2.1 ∧ (prevDate y m d).2.1 ≤ 12 ∧
    1 ≤ (prevDate y m d).2.2 ∧
    (prevDate y m d).2.2 ≤ daysInMonth (prevDate y m d).1 (prevDate y m d).2.1 := by
  unfold prevDate
  by_cases h1 : 1 < d
  · simp only [if_pos h1]
    refine ⟨hy.trans' (by omega), hy2, hm1, hm2, by omega, by omega⟩
  · simp only [if_neg h1]
    by_cases h2 : 1 < m
    · simp only [if_pos h2]
      exact ⟨hy.trans' (by omega), hy2, by omega, by omega, daysInMonth_pos y (m - 1), le_refl _⟩
    · simp only [if_neg h2]
      have h31 : daysInMonth (y - 1) 12 = 31 := rfl
      exact ⟨by omega, by omega, by omega, by omega, by omega, by omega⟩

theorem pyDatetimeMk_ok (y mo d hh mm : Nat) (h1 : 1 ≤ y) (h2 : y ≤ 9999) (h3 : 1 ≤ mo)
    (h4 : mo ≤ 12) (h5 : 1 ≤ d) (h6 : d ≤ daysInMonth y mo) (h7 : hh ≤ 23) (h8 : mm ≤ 59) :
    pyDatetimeMk y mo d hh mm = Except.ok ⟨y, mo, d, hh, mm, 0, 0⟩ := by
  unfold pyDatetimeMk
  rw [if_neg (by omega), if_neg (by omega), if_neg (by omega), if_neg (by omega),
    if_neg (by omega)]

theorem pyDatetimeMk_hour_invalid (y mo d hh mm : Nat) (h : 23 < hh) :
    (pyDatetimeMk y mo d hh mm).isOk = false := by
  unfold pyDatetimeMk
  repeat' split
  all_goals first | rfl | (simp [Except.isOk, Except.toBool]) | omega

/-- C6 counterexample: `"今天 25:00"` matches the relative pattern, so
instead of falling back to `now` the code calls
`datetime(..., hour=25, ...)`, which raises `ValueError`; the claim's
"any other text maps to now itself" (and its implicit totality) fails
here. -/
theorem parse_cn_time_hour25_cex :
    _parse_cn_time "今天 25:00" cnNow = Except.error "hour must be in 0..23" ∧
    _parse_cn_time "今天 25:00" cnNow ≠ Except.ok cnNow ∧
    (_parse_cn_time "今天 25:00" cnNow).isOk = false := by
  refine ⟨by decide, by decide, by decide⟩

/-- C6 (amended): `parseLocalTime` maps `"今天 HH:MM"` to now's date with
the given time and `"昨天 HH:MM"` to the previous day, for in-range
times; maps `"YYYY-MM-DD HH:MM"` through the validating datetime
constructor; falls back to `now` exactly when neither pattern matches;
and raises `ValueError` (rather than falling back) when a matching text
carries an out-of-range time. -/
theorem parse_cn_time_spec :
    (_parse_cn_time "今天 21:41" cnNow = Except.ok ⟨2025, 10, 26, 21, 41, 0, 0⟩) ∧
    (_parse_cn_time "昨天 08:12" cnNow = Except.ok ⟨2025, 10, 25, 8, 12, 0, 0⟩) ∧
    (_parse_cn_time "2025-10-26 21:41" cnNow = Except.ok ⟨2025, 10, 26, 21, 41, 0, 0⟩) ∧
    (∀ (s : String) (now : PyDateTime),
      matchRel (pyStrip s).data = none → matchAbs (pyStrip s).data = none →
      _parse_cn_time s now = Except.ok now) ∧
    (∀ (s : String) (now : PyDateTime) (hh mm : Nat),
      now.isValid = true → 2 ≤ now.year → hh ≤ 23 → mm ≤ 59 →
      (matchRel (pyStrip s).data = some (true, hh, mm) →
        _parse_cn_time s now = Except.ok ⟨now.year, now.month, now.day, hh, mm, 0, 0⟩) ∧
      (matchRel (pyStrip s).data = some (false, hh, mm) →
        _parse_cn_time s now = Except.ok ⟨(prevDate now.year now.month now.day).1,
          (prevDate now.year now.month now.day).2.1,
          (prevDate now.year now.month now.day).2.2, hh, mm, 0, 0⟩)) ∧
    (∀ (s : String) (now : PyDateTime) (isT : Bool) (hh mm : Nat),
      matchRel (pyStrip s).data = some (isT, hh, mm) → 23 < hh →
      (_parse_cn_time s now).isOk = false) ∧
    (∀ (s : String) (now : PyDateTime) (y mo d hh mm : Nat),
      matchRel (pyStrip s).data = none →
      matchAbs (pyStrip s).data = some (y, mo, d, hh, mm) →
      _parse_cn_time s now = pyDatetimeMk y mo d hh mm) := by
  refine ⟨by decide, by decide, by decide, ?_, ?_, ?_, ?_⟩
  · intro s now h1 h2
    unfold _parse_cn_time
    dsimp only
    rw [h1, h2]
  · intro s now hh mm hv hy hhh hmm
    have hval := hv
    simp only [PyDateTime.isValid, Bool.and_eq_true, decide_eq_true_eq] at hval
    constructor
    · intro hrel
      unfold _parse_cn_time
      dsimp only
      rw [hrel]
      show pyDatetimeMk now.year now.month now.day hh mm = _
      exact pyDatetimeMk_ok _ _ _ _ _ (by omega) (by omega) (by omega) (by omega)
        (by omega) (by omega) hhh hmm
    · intro hrel
      unfold _parse_cn_time
      dsimp only
      rw [hrel]
      show pyDatetimeMk (prevDate now.year now.month now.day).1
        (prevDate now.year now.month now.day).2.1
        (prevDate now.year now.month now.day).2.2 hh mm = _
      obtain ⟨p1, p2, p3, p4, p5, p6⟩ :=
        prevDate_valid now.year now.month now.day hy (by omega) (by omega) (by omega)
          (by omega) (by omega)
      exact pyDatetimeMk_ok _ _ _ _ _ p1 p2 p3 p4 p5 p6 hhh hmm
  · intro s now isT hh mm hrel hhh
    unfold _parse_cn_time
    dsimp only
    rw [hrel]
    exact pyDatetimeMk_hour_invalid _ _ _ _ _ hhh
  · intro s now y mo d hh mm h1 h2
    unfold _parse_cn_time
    dsimp only
    rw [h1, h2]

theorem parse_cn_time_spec_witness :
    (matchRel (pyStrip "nothing like a date").data = none) ∧
    (matchAbs (pyStrip "nothing like a date").data = none) ∧
    _parse_cn_time "nothing like a date" cnNow = Except.ok cnNow ∧
    (matchRel (pyStrip " 昨天 6:05 ").data = some (false, 6, 5)) ∧
    _parse_cn_time " 昨天 6:05 " cnNow = Except.ok ⟨2025, 10, 25, 6, 5, 0, 0⟩ ∧
    (matchRel (pyStrip "今天 99:30").data = some (true, 99, 30)) ∧
    (_parse_cn_time "今天 99:30" cnNow).isOk = false :=
  ⟨by decide, by decide,
   parse_cn_time_spec.2.2.2.1 "nothing like a date" cnNow (by decide) (by decide),
   by decide,
   ((parse_cn_time_spec.2.2.2.2.1 " 昨天 6:05 " cnNow 6 5 (by decide) (by decide)
      (by decide) (by decide)).2 (by decide)),
   by decide,
   parse_cn_time_spec.2.2.2.2.2.1 "今天 99:30" cnNow true 99 30 (by decide) (by decide)⟩

/-! ### C7 lemmas and theorem -/

theorem findMagnetHref_eq_find? :
    ∀ l : List String,
      findMagnetHref l = l.find? (fun h => pyStartsWith h "magnet:?xt=urn:btih:") := by
  intro l
  induction l with
  | nil => rfl
  | cons h rest ih =>
    simp only [findMagnetHref, List.find?]
    by_cases hp : pyStartsWith h "magnet:?xt=urn:btih:" <;> simp [hp, ih]

theorem findDownloadHref_eq_find? :
    ∀ l : List String, findDownloadHref l = l.find? isDownloadHref := by
  intro l
  induction l with
  | nil => rfl
  | cons h rest ih =>
    simp only [findDownloadHref, List.find?]
    by_cases hp : isDownloadHref h <;> simp [hp, ih]

theorem magnet_href_ne_empty (h : String) (hp : pyStartsWith h "magnet:?xt=urn:btih:" = true) :
    h ≠ "" := by
  intro he
  rw [he] at hp
  exact absurd hp (by decide)

theorem download_href_ne_empty (h : String) (hp : isDownloadHref h = true) : h ≠ "" := by
  intro he
  rw [he] at hp
  exact absurd hp (by decide)

/-- C7: `resolveDownloadLink` is total (all failure modes are absorbed):
a closed client, a network error, or a non-200 status return `detailUrl`
unchanged, and a 200 response yields the first magnet href of the body
in document order, else the first `.torrent`/`download` href, else
`detailUrl` unchanged. -/
theorem resolve_download_link_spec :
    (∀ (c : HttpClient) (url : String), c.closed = true → _fetch_detail_link c url = url) ∧
    (∀ (c : HttpClient) (url : String), c.closed = false → c.respond url = none →
      _fetch_detail_link c url = url) ∧
    (∀ (c : HttpClient) (url : String) (st : Nat) (pg : Page),
      c.closed = false → c.respond url = some (st, pg) → st ≠ 200 →
      _fetch_detail_link c url = url) ∧
    (∀ (c : HttpClient) (url : String) (pg : Page),
      c.closed = false → c.respond url = some (200, pg) →
      _fetch_detail_link c url =
        match (pageHrefs pg.dom).find? (fun h => pyStartsWith h "magnet:?xt=urn:btih:") with
        | some m => m
        | none =>
          match (pageHrefs pg.dom).find? isDownloadHref with
          | some d => d
          | none => url) := by
  refine ⟨?_, ?_, ?_, ?_⟩
  · intro c url hc
    unfold _fetch_detail_link
    rw [hc]
    rfl
  · intro c url hc hr
    unfold _fetch_detail_link
    rw [hc, hr]
    rfl
  · intro c url st pg hc hr hst
    unfold _fetch_detail_link
    rw [hc, hr]
    simp [hst]
  · intro c url pg hc hr
    unfold _fetch_detail_link
    rw [hc, hr]
    simp only [Bool.false_eq_true, if_false]
    rw [if_pos (by trivial)]
    unfold _extract_magnet_from_detail
    dsimp only
    rw [findMagnetHref_eq_find?, findDownloadHref_eq_find?]
    rcases hm : (pageHrefs pg.dom).find? (fun h => pyStartsWith h "magnet:?xt=urn:btih:") with _ | m
    · rcases hd : (pageHrefs pg.dom).find? isDownloadHref with _ | d
      · rfl
      · have hne : d ≠ "" :=
          download_href_ne_empty d (by simpa using List.find?_some hd)
        simp [hne]
    · have hne : m ≠ "" :=
        magnet_href_ne_empty m (by simpa using List.find?_some hm)
      simp [hne]

/-- A detail page whose first `<a href>` is an unrelated absolute link
and whose second is a magnet link. -/
def detailPage7 : Page :=
  ⟨"<html>detail</html>", Node.elem "[document]" [] (nodesOf
    [Node.elem "div" [] (nodesOf
      [Node.elem "a" [("href", "https://comicat.org/rss.xml")] NodeList.nil,
       Node.elem "a" [("href", "magnet:?xt=urn:btih:deadbeef")] NodeList.nil])])⟩

/-- A client whose oracle serves `detailPage7` for one URL. -/
def client7 : HttpClient :=
  ⟨false, fun u => if u = "https://comicat.org/show-7.html" then some (200, detailPage7) else none⟩

theorem resolve_download_link_spec_witness :
    client7.closed = false ∧
    client7.respond "https://comicat.org/show-7.html" = some (200, detailPage7) ∧
    _fetch_detail_link client7 "https://comicat.org/show-7.html" = "magnet:?xt=urn:btih:deadbeef" ∧
    _fetch_detail_link client7 "https://comicat.org/missing.html" = "https://comicat.org/missing.html" := by
  refine ⟨rfl, rfl, ?_, ?_⟩
  · have h := resolve_download_link_spec.2.2.2 client7 "https://comicat.org/show-7.html"
      detailPage7 rfl rfl
    rw [h]
    rfl
  · exact resolve_download_link_spec.2.1 client7 "https://comicat.org/missing.html" rfl rfl

/-! ### C4: structure of the extraction -/

/-- The retained rows of the selected table body: direct `tr` children
with at least 4 direct cells and a title hyperlink, in document order. -/
def retainedRowsOf (tbody : Node) : List Node :=
  (directChildren "tr" tbody).filter rowRetained

/-- C4 (amended): when the fixed `table#listTable tbody#data_list` pair
is absent the extractor returns the empty sequence, and otherwise
whenever it returns at all (no date cell raises `ValueError`) the result
is exactly one record per retained row (4+ cells and a third cell with
a hyperlink), in document order — no deduplication, no re-sorting. -/
theorem extract_rows_structure (doc : Node) (c : Option HttpClient) (k : Nat) (now : PyDateTime) :
    (Node.selectDataListHere doc false = none → _parse_today_table doc c k now = Except.ok []) ∧
    (∀ (tbody : Node) (l : List AnimeInfo),
      Node.selectDataListHere doc false = some tbody →
      _parse_today_table doc c k now = Except.ok l →
      l = mapIdxFrom (retainedRecord c k now) 0 (retainedRowsOf tbody)) := by
  constructor
  · intro h
    unfold _parse_today_table
    rw [h]
  · intro tbody l hsel hok
    unfold _parse_today_table at hok
    rw [hsel] at hok
    exact parseRows_ok_eq c k now _ 0 l hok

/-- A well-formed row: publish time, category, linked title, size. -/
def trOk : Node := Node.elem "tr" [] (nodesOf
  [Node.elem "td" [] (nodesOf [Node.text "今天 21:41"]),
   Node.elem "td" [] (nodesOf [Node.text "动画"]),
   Node.elem "td" [] (nodesOf
     [Node.elem "a" [("href", "show-1.html")] (nodesOf [Node.text "Show One 1080p"])]),
   Node.elem "td" [] (nodesOf [Node.text "567.6MB"])])

/-- A malformed row with only 3 cells. -/
def trShort : Node := Node.elem "tr" [] (nodesOf
  [Node.elem "td" [] NodeList.nil, Node.elem "td" [] NodeList.nil,
   Node.elem "td" [] NodeList.nil])

/-- A row whose third cell has no hyperlink. -/
def trNoLink : Node := Node.elem "tr" [] (nodesOf
  [Node.elem "td" [] (nodesOf [Node.text "昨天 08:12"]),
   Node.elem "td" [] NodeList.nil,
   Node.elem "td" [] (nodesOf [Node.text "no link here"]),
   Node.elem "td" [] NodeList.nil])

/-- The selected table body of the C4 witness document. -/
def tbody4 : Node := Node.elem "tbody" [("id", "data_list")]
  (nodesOf [trOk, trShort, trNoLink])

/-- The C4 witness document. -/
def doc4 : Node := Node.elem "[document]" [] (nodesOf
  [Node.elem "table" [("id", "listTable")] (nodesOf [tbody4])])

/-- The single record extracted from `doc4`. -/
def rec4 : AnimeInfo :=
  { title := "Show One 1080p", url := "https://comicat.org/show-1.html",
    size := "567.6MB", quality := "1080p",
    date := "2025-10-26T21:41:00+08:00", source := "comicat.org" }

theorem extract_rows_structure_witness :
    Node.selectDataListHere doc4 false = some tbody4 ∧
    _parse_today_table doc4 none 12 cnNow = Except.ok [rec4] ∧
    [rec4] = mapIdxFrom (retainedRecord none 12 cnNow) 0 (retainedRowsOf tbody4) :=
  ⟨rfl, by decide,
   (extract_rows_structure doc4 none 12 cnNow).2 tbody4 [rec4] rfl (by decide)⟩

/-! ### C5: the detail-resolution cap -/

theorem mapIdxFrom_length {α β : Type} (f : Nat → α → β) :
    ∀ (n : Nat) (xs : List α), (mapIdxFrom f n xs).length = xs.length := by
  intro n xs
  induction xs generalizing n with
  | nil => rfl
  | cons x rest ih => simp [mapIdxFrom, ih]

theorem mapIdxFrom_getD {α β : Type} (f : Nat → α → β) :
    ∀ (xs : List α) (n i : Nat) (db : β) (da : α), i < xs.length →
      (mapIdxFrom f n xs).getD i db = f (n + i) (xs.getD i da) := by
  intro xs
  induction xs with
  | nil => intro n i db da h; cases h
  | cons x rest ih =>
    intro n i db da h
    match i with
    | 0 => rfl
    | i' + 1 =>
      have := ih (n + 1) i' db da (Nat.lt_of_succ_lt_succ h)
      simpa [mapIdxFrom, Nat.add_assoc, Nat.add_comm 1 i'] using this

/-- A record with no content, used only as a `getD` default. -/
def defaultRecord : AnimeInfo := ⟨"", "", "", "", "", ""⟩

/-- C5 (amended): with a resolver supplied and cap `k`, whenever the
extraction returns at all (no date cell raises `ValueError`), exactly
the retained rows with index `< k` (document order) carry the
resolver's result as their `url`, and every later retained row keeps
its unresolved detail-page URL. -/
theorem detail_resolution_cap (doc : Node) (c : HttpClient) (k : Nat) (now : PyDateTime)
    (tbody : Node) (l : List AnimeInfo)
    (hsel : Node.selectDataListHere doc false = some tbody)
    (hok : _parse_today_table doc (some c) k now = Except.ok l) :
    l.length = (retainedRowsOf tbody).length ∧
    ∀ i, i < (retainedRowsOf tbody).length →
      (l.getD i defaultRecord).url =
        if i < k then
          _fetch_detail_link c (rowDetailUrl ((retainedRowsOf tbody).getD i (Node.text "")))
        else rowDetailUrl ((retainedRowsOf tbody).getD i (Node.text "")) := by
  have hl : l = mapIdxFrom (retainedRecord (some c) k now) 0 (retainedRowsOf tbody) := by
    unfold _parse_today_table at hok
    rw [hsel] at hok
    exact parseRows_ok_eq (some c) k now _ 0 l hok
  constructor
  · rw [hl]
    exact mapIdxFrom_length _ _ _
  · intro i hi
    rw [hl, mapIdxFrom_getD _ _ 0 i defaultRecord (Node.text "") hi]
    simp only [Nat.zero_add]
    rfl

/-- A valid row whose title link points at a given href. -/
def mkRow5 (href title : String) : Node := Node.elem "tr" [] (nodesOf
  [Node.elem "td" [] (nodesOf [Node.text "今天 09:30"]),
   Node.elem "td" [] NodeList.nil,
   Node.elem "td" [] (nodesOf
     [Node.elem "a" [("href", href)] (nodesOf [Node.text title])]),
   Node.elem "td" [] (nodesOf [Node.text "1GB"])])

/-- The selected body of the C5 witness document: 3 valid rows. -/
def tbody5 : Node := Node.elem "tbody" [("id", "data_list")]
  (nodesOf [mkRow5 "show-a.html" "Alpha", mkRow5 "show-b.html" "Beta",
            mkRow5 "show-c.html" "Gamma"])

/-- The C5 witness document. -/
def doc5 : Node := Node.elem "[document]" [] (nodesOf
  [Node.elem "table" [("id", "listTable")] (nodesOf [tbody5])])

/-- A detail page holding one magnet link. -/
def magPage (btih : String) : Page :=
  ⟨"<html>d</html>", Node.elem "[document]" [] (nodesOf
    [Node.elem "a" [("href", String.append "magnet:?xt=urn:btih:" btih)] NodeList.nil])⟩

/-- An open client resolving the first two C5 detail pages. -/
def client5 : HttpClient :=
  ⟨false, fun u =>
    if u = "https://comicat.org/show-a.html" then some (200, magPage "aa")
    else if u = "https://comicat.org/show-b.html" then some (200, magPage "bb")
    else none⟩

/-- The list `_parse_today_table` produces on `doc5` with cap 2. -/
def l5 : List AnimeInfo :=
  [{ title := "Alpha", url := "magnet:?xt=urn:btih:aa", size := "1GB",
     quality := "unknown", date := "2025-10-26T09:30:00+08:00", source := "comicat.org" },
   { title := "Beta", url := "magnet:?xt=urn:btih:bb", size := "1GB",
     quality := "unknown", date := "2025-10-26T09:30:00+08:00", source := "comicat.org" },
   { title := "Gamma", url := "https://comicat.org/show-c.html", size := "1GB",
     quality := "unknown", date := "2025-10-26T09:30:00+08:00", source := "comicat.org" }]

theorem detail_resolution_cap_witness :
    _parse_today_table doc5 (some client5) 2 cnNow = Except.ok l5 ∧
    l5.length = (retainedRowsOf tbody5).length ∧
    (l5.getD 0 defaultRecord).url = "magnet:?xt=urn:btih:aa" ∧
    (l5.getD 1 defaultRecord).url = "magnet:?xt=urn:btih:bb" ∧
    (l5.getD 2 defaultRecord).url = "https://comicat.org/show-c.html" :=
  have h := detail_resolution_cap doc5 client5 2 cnNow tbody5 l5 rfl (by decide)
  ⟨by decide, h.1, h.2 0 (by decide), h.2 1 (by decide), h.2 2 (by decide)⟩

/-! ### C4/C5 counterexamples: a date cell that raises

The date cell is parsed (crawler.py line 137) before the title-link
check (line 143), and `datetime(...)` validates its fields, so a 4-cell
row whose date text matches a pattern with an out-of-range time makes
`_parse_today_table` raise `ValueError` — even a row with no hyperlink,
which would otherwise merely be skipped.  On such input the extractor
returns no sequence at all. -/

/-- A 4-cell row with no title hyperlink whose date cell reads
`"今天 25:00"` (hour out of range). -/
def trBadDate : Node := Node.elem "tr" [] (nodesOf
  [Node.elem "td" [] (nodesOf [Node.text "今天 25:00"]),
   Node.elem "td" [] NodeList.nil,
   Node.elem "td" [] (nodesOf [Node.text "no link"]),
   Node.elem "td" [] NodeList.nil])

/-- Table body holding only the bad-date row. -/
def tbodyBadDate : Node := Node.elem "tbody" [("id", "data_list")] (nodesOf [trBadDate])

/-- Document for the C4 counterexample. -/
def docBadDate : Node := Node.elem "[document]" [] (nodesOf
  [Node.elem "table" [("id", "listTable")] (nodesOf [tbodyBadDate])])

/-- Table body with one retained row followed by the bad-date row. -/
def tbodyCapBadDate : Node := Node.elem "tbody" [("id", "data_list")]
  (nodesOf [mkRow5 "show-a.html" "Alpha", trBadDate])

/-- Document for the C5 counterexample. -/
def docCapBadDate : Node := Node.elem "[document]" [] (nodesOf
  [Node.elem "table" [("id", "listTable")] (nodesOf [tbodyCapBadDate])])

/-- C4 counterexample: the identifier pair is present and the only row
lacks a hyperlink, so the claim says it is skipped and the extractor
returns the empty sequence; instead the code raises `ValueError` from
the date cell and returns no sequence at all. -/
theorem extract_rows_bad_date_cex :
    rowRetained trBadDate = false ∧
    retainedRowsOf tbodyBadDate = [] ∧
    Node.selectDataListHere docBadDate false = some tbodyBadDate ∧
    _parse_today_table docBadDate none 12 cnNow = Except.error "hour must be in 0..23" ∧
    _parse_today_table docBadDate none 12 cnNow ≠ Except.ok [] ∧
    (_parse_today_table docBadDate none 12 cnNow).isOk = false := by
  refine ⟨by decide, rfl, rfl, by decide, by decide, by decide⟩

/-- C5 counterexample: one retained row, a resolver supplied, cap 12 —
the claim says that retained row receives the resolver's result; instead
the bad-date row makes the code raise `ValueError`, so no retained row
receives any URL (no record list is produced). -/
theorem detail_cap_bad_date_cex :
    (retainedRowsOf tbodyCapBadDate).length = 1 ∧
    Node.selectDataListHere docCapBadDate false = some tbodyCapBadDate ∧
    _parse_today_table docCapBadDate (some client5) 12 cnNow =
      Except.error "hour must be in 0..23" ∧
    (_parse_today_table docCapBadDate (some client5) 12 cnNow).isOk = false := by
  refine ⟨by decide, rfl, by decide, by decide⟩

/-! ### C9: sentinel fields -/

theorem sizeSearchL_some_ne_nil (cs m : List Char) (h : sizeSearchL cs = some m) : m ≠ [] := by
  obtain ⟨i, hi, _⟩ := sizeSearchL_leftmost cs m h
  exact matchSizeAt_ne_nil _ m hi

theorem guess_size_ne_empty (t : String) : _guess_size t ≠ "" := by
  unfold _guess_size
  rcases hs : sizeSearchL t.data with _ | m
  · by_cases ht : t = ""
    · simp [ht]
    · simp [ht]
  · exact stringMk_ne_empty m (sizeSearchL_some_ne_nil t.data m hs)

theorem matchLitCI_length : ∀ (p cs m r : List Char), matchLitCI p cs = some (m, r) →
    m.length = p.length := by
  intro p
  induction p with
  | nil =>
    intro cs m r h
    cases h
    rfl
  | cons pc ps ih =>
    intro cs m r h
    match cs with
    | [] => cases h
    | c :: cs' =>
      unfold matchLitCI at h
      by_cases hb : charCIEq pc c = true
      · rw [if_pos hb] at h
        rcases hm : matchLitCI ps cs' with _ | ⟨m2, r2⟩
        · rw [hm] at h
          cases h
        · rw [hm] at h
          cases h
          simp only [List.length_cons]
          congr 1
          exact ih cs' m2 _ hm
      · rw [if_neg hb] at h
        cases h

/-- Every alternative in the quality groups has a non-empty pattern. -/
def qAltGood : QAlt → Bool
  | .lit s => decide (s ≠ "")
  | .webOpt _ => true

theorem matchWebTail_ne_nil (w : List Char) (suffix : String) (r1 m : List Char)
    (hwne : w ≠ []) (h : matchWebTail w suffix r1 = some m) : m ≠ [] := by
  unfold matchWebTail at h
  dsimp only at h
  rcases r1 with _ | ⟨c, r2⟩
  · rcases Option.map_eq_some'.1 h with ⟨pr, _, rfl⟩
    simp [hwne]
  · dsimp only at h
    by_cases hsep : (c = '-' || c = ' ') = true
    · rw [if_pos hsep] at h
      rcases hs : matchLitCI suffix.data r2 with _ | ⟨m2, r3⟩
      · rw [hs] at h
        rcases Option.map_eq_some'.1 h with ⟨pr, _, rfl⟩
        simp [hwne]
      · rw [hs] at h
        cases h
        simp
    · rw [if_neg hsep] at h
      rcases Option.map_eq_some'.1 h with ⟨pr, _, rfl⟩
      simp [hwne]

theorem matchQAltAt_ne_nil (alt : QAlt) (cs m : List Char)
    (hgood : qAltGood alt = true) (h : matchQAltAt alt cs = some m) : m ≠ [] := by
  rcases alt with p | suffix
  · simp only [qAltGood, decide_eq_true_eq] at hgood
    unfold matchQAltAt at h
    dsimp only at h
    rcases Option.map_eq_some'.1 h with ⟨⟨m2, r2⟩, hl, rfl⟩
    have hlen := matchLitCI_length p.data cs m2 r2 hl
    dsimp only
    intro hnil
    rw [hnil] at hlen
    have hpd : p.data = [] := List.eq_nil_of_length_eq_zero hlen.symm
    exact hgood (by simpa using congrArg String.mk hpd)
  · unfold matchQAltAt at h
    dsimp only at h
    split at h
    · cases h
    next w r1 hw =>
      have hwlen : w.length = 3 := matchLitCI_length _ _ _ _ hw
      have hwne : w ≠ [] := by
        intro hnil
        rw [hnil] at hwlen
        cases hwlen
      exact matchWebTail_ne_nil w suffix r1 m hwne h

theorem matchQAltsAt_ne_nil : ∀ (alts : List QAlt) (cs m : List Char),
    alts.all qAltGood = true → matchQAltsAt alts cs = some m → m ≠ [] := by
  intro alts
  induction alts with
  | nil => intro cs m _ h; cases h
  | cons a rest ih =>
    intro cs m hgood h
    simp only [List.all_cons, Bool.and_eq_true] at hgood
    unfold matchQAltsAt at h
    rcases ha : matchQAltAt a cs with _ | m0
    · rw [ha] at h
      exact ih cs m hgood.2 h
    · rw [ha] at h
      cases h
      exact matchQAltAt_ne_nil a cs m hgood.1 ha

theorem qSearchL_some_ne_nil (alts : List QAlt) (hgood : alts.all qAltGood = true) :
    ∀ (cs m : List Char), qSearchL alts cs = some m → m ≠ [] := by
  intro cs
  induction cs with
  | nil =>
    intro m h
    exact matchQAltsAt_ne_nil alts [] m hgood h
  | cons c rest ih =>
    intro m h
    simp only [qSearchL] at h
    rcases hm : matchQAltsAt alts (c :: rest) with _ | m0
    · rw [hm] at h
      exact ih m h
    · rw [hm] at h
      cases h
      exact matchQAltsAt_ne_nil alts _ m hgood hm

theorem guess_quality_ne_empty (t : String) : _guess_quality t ≠ "" := by
  unfold _guess_quality qualityGroups
  simp only [guessQualityLoop]
  rcases h1 : qSearchL qualityGroup1 t.data with _ | m1
  · rcases h2 : qSearchL qualityGroup2 t.data with _ | m2
    · rcases h3 : qSearchL qualityGroup3 t.data with _ | m3
      · decide
      · exact stringMk_ne_empty m3 (qSearchL_some_ne_nil qualityGroup3 (by decide) t.data m3 h3)
    · exact stringMk_ne_empty m2 (qSearchL_some_ne_nil qualityGroup2 (by decide) t.data m2 h2)
  · exact stringMk_ne_empty m1 (qSearchL_some_ne_nil qualityGroup1 (by decide) t.data m1 h1)

theorem mapIdxFrom_mem {α β : Type} (f : Nat → α → β) :
    ∀ (n : Nat) (xs : List α) (b : β), b ∈ mapIdxFrom f n xs → ∃ i a, b = f i a := by
  intro n xs
  induction xs generalizing n with
  | nil => intro b h; cases h
  | cons x rest ih =>
    intro b h
    rcases List.mem_cons.1 h with h0 | h0
    · exact ⟨n, x, h0⟩
    · exact ih (n + 1) b h0

/-- C9 counterexample: a retained row whose title hyperlink has no text
produces a record whose `title` is the empty string (the parser applies
no non-emptiness check), refuting the claimed non-empty-title
invariant. -/
def trEmptyTitle : Node := Node.elem "tr" [] (nodesOf
  [Node.elem "td" [] NodeList.nil,
   Node.elem "td" [] NodeList.nil,
   Node.elem "td" [] (nodesOf
     [Node.elem "a" [("href", "x.html")] (nodesOf [Node.text "   "])]),
   Node.elem "td" [] NodeList.nil])

/-- The C9 counterexample document. -/
def doc9 : Node := Node.elem "[document]" [] (nodesOf
  [Node.elem "table" [("id", "listTable")] (nodesOf
    [Node.elem "tbody" [("id", "data_list")] (nodesOf [trEmptyTitle])])])

/-- The record `doc9` yields: empty title, sentinel size and quality. -/
def rec9 : AnimeInfo :=
  { title := "", url := "https://comicat.org/x.html", size := "未知大小",
    quality := "unknown", date := "2025-10-26T10:00:00+08:00", source := "comicat.org" }

theorem empty_title_cex :
    _parse_today_table doc9 none 12 cnNow = Except.ok [rec9] ∧
    rec9.title = "" ∧ rowRetained trEmptyTitle = true := by
  refine ⟨by decide, rfl, by decide⟩

/-- C9 (amended): every record the extractor produces has non-empty
`size` and `quality` fields (unresolved values use the sentinels
`"未知大小"` and `"unknown"`), but the `title` field is the cleaned
hyperlink text and is empty when that text is empty or whitespace-only. -/
theorem record_sentinels_nonempty :
    ∀ (doc : Node) (c : Option HttpClient) (k : Nat) (now : PyDateTime)
      (l : List AnimeInfo) (r : AnimeInfo),
      _parse_today_table doc c k now = Except.ok l → r ∈ l →
      r.size ≠ "" ∧ r.quality ≠ "" := by
  intro doc c k now l r hok hmem
  unfold _parse_today_table at hok
  rcases hsel : Node.selectDataListHere doc false with _ | tbody
  · rw [hsel] at hok
    cases hok
    cases hmem
  · rw [hsel] at hok
    have hl := parseRows_ok_eq c k now _ 0 l hok
    rw [hl] at hmem
    obtain ⟨i, tr, rfl⟩ := mapIdxFrom_mem _ 0 _ r hmem
    exact ⟨guess_size_ne_empty _, guess_quality_ne_empty _⟩

theorem record_sentinels_nonempty_witness :
    rec9 ∈ [rec9] ∧ rec9.size ≠ "" ∧ rec9.quality ≠ "" :=
  ⟨List.mem_singleton.2 rfl,
   record_sentinels_nonempty doc9 none 12 cnNow [rec9] rec9 (by decide)
     (List.mem_singleton.2 rfl)⟩

/-! ### C1, C2, C3: orchestrator and endpoint bugs -/

/-- A listing page whose body is real content (no challenge markers),
parsing to `doc4`. -/
def goodListingPage : Page := ⟨"<html><body>today listing</body></html>", doc4⟩

/-- A challenge interstitial (no data table in its DOM). -/
def capPage : Page := ⟨"<html>Please verify: CAPTCHA</html>", Node.elem "[document]" [] NodeList.nil⟩

/-- A detail oracle resolving `trOk`'s detail page to a magnet link. -/
def magnetOracle : String → Option (Nat × Page) :=
  fun u => if u = "https://comicat.org/show-1.html" then some (200, magPage "cafe") else none

/-- C1: the snapshot-before-check write at crawler.py line 207 means
that on a blocked fetch with a prior good snapshot, the snapshot file
ends up holding the blocked body and the page re-read for parsing is
that very blocked body — not the prior successful fetch the claim (and
the code's own cache-fallback message) describes. -/
theorem snapshot_holds_blocked_body_bug :
    _looks_like_captcha capPage.raw = true ∧
    _looks_like_captcha goodListingPage.raw = false ∧
    (snapshotStep capPage (some goodListingPage) true).htmlForParse = some capPage ∧
    (snapshotStep capPage (some goodListingPage) true).snapshotFile = some capPage ∧
    (snapshotStep capPage (some goodListingPage) true).debugMsg = debugCacheMsg ∧
    capPage.raw ≠ goodListingPage.raw ∧
    scrape_comicat_today ⟨capPage, some goodListingPage, true, magnetOracle, cnNow⟩ =
      Except.ok ([], debugNoItemsMsg) := by
  refine ⟨by decide, by decide, rfl, rfl, rfl, by decide, by decide⟩

/-- C2: `scrape_latest` binds the `(items, debug_msg)` tuple to
`results`, so `not results` is always false and `results[0]` is the
whole items list: an empty scrape yields the JSON array `[]` (never the
documented error payload), and a successful scrape yields the full
bounded list (never just the first record). -/
theorem scrape_latest_tuple_bug :
    scrape_latest (Except.ok ([], debugNoItemsMsg)) = ApiResponse.jsonList [] ∧
    (∀ msg : String, ApiResponse.jsonList [] ≠ ApiResponse.errorPayload msg) ∧
    scrape_latest (Except.ok ([rec4, rec9], "OK")) = ApiResponse.jsonList [rec4, rec9] ∧
    (∀ r : AnimeInfo, ApiResponse.jsonList [rec4, rec9] ≠ ApiResponse.jsonRecord r) ∧
    rec4 ≠ rec9 ∧
    scrape_latest (Except.error "boom") = ApiResponse.errorPayload "Scrape failed: boom" := by
  refine ⟨rfl, ?_, rfl, ?_, by decide, rfl⟩
  · intro msg h
    cases h
  · intro r h
    cases h

/-- The environment of the C3 theorem: a good listing page with one
valid row, and a detail oracle that would serve its magnet link. -/
def env3 : ScrapeEnv := ⟨goodListingPage, none, true, magnetOracle, cnNow⟩

/-- C3: the `with` block (crawler.py line 202) ends before line 229, so
every detail fetch runs on the already-closed client: the scrape's
record keeps the unresolved detail URL even though the same request on
the still-open session would return the magnet link. -/
theorem detail_fetch_after_client_close_bug :
    (clientAtParseTime env3).closed = true ∧
    scrape_comicat_today env3 = Except.ok ([rec4], "OK") ∧
    rec4.url = "https://comicat.org/show-1.html" ∧
    _fetch_detail_link ⟨false, env3.detailRespond⟩ "https://comicat.org/show-1.html" =
      "magnet:?xt=urn:btih:cafe" := by
  refine ⟨rfl, by decide, rfl, by decide⟩
